import Mathlib

/-!
Shallow embedding of the phatty entity/component runtime.

The model follows the TypeScript source:
* `ComponentSystem` (the per-entity component registry): the map from
  component-type identity to instance, the lazily rebuilt priority-ordered
  view, the FIFO pending-creation queue, and the operations
  `add`/`remove`/`get`/`find`/`has`/`all`/`clear`/`updateComponents`/
  `createComponents`/`destroyComponents`.
* `Component`: the per-instance `created` flag, `checkRequired` and the
  `createAndUpdate` dispatcher.
* `EntitySystem`: the live entity list, `create`/`destroy` and the
  `sceneDestroy` relay (a JavaScript `Array.prototype.forEach` over the
  live array while `destroy` splices it).
* `QueryBuilder`: accumulated boolean conditions and the terminal
  operations `first`/`all`/`count`/`exists`.

Component lifecycle hooks are user code; the model treats them as opaque
and records each invocation (together with constructor invocations,
construction-context writes and emitter signals) in a trace of `Event`s.
Machine identity of instances is modelled by numeric ids that are fresh
per registry; hook events also carry the owning entity id so that events
of distinct entities stay distinct.
-/

namespace Phatty

/-- Component-type identity (the constructor used as a `Map` key). -/
abbrev CType := Nat

/-- Instance identity (object identity of a constructed component). -/
abbrev InstId := Nat

/-- A JavaScript value passed to a component constructor. -/
inductive JSValue where
  | num (n : Int)
  | arr (elems : List JSValue)

/-- Decorator metadata, `ComponentMetadata` from `utils/componentDecorator.ts`:
both fields optional. -/
structure ComponentMetadata where
  priority : Option Int := none
  required : Option (List CType) := none
deriving DecidableEq

/-- One value of the registry map, `ComponentMapValue` from `ComponentSystem.ts`:
the constructed instance plus the (optional) metadata snapshot taken at add
time. -/
structure MapValue where
  inst : InstId
  meta : Option ComponentMetadata
deriving DecidableEq

/-- Observable events: lifecycle-hook invocations, constructor invocations,
construction-context writes, and emitter signals.  Hook events carry the
owning entity id and the instance id. -/
inductive Event where
  | setCtx (entity : Nat)
  | resetCtx
  | construct (entity : Nat) (i : InstId) (args : List JSValue)
  | create (entity : Nat) (i : InstId)
  | update (entity : Nat) (i : InstId) (time delta : Int)
  | destroy (entity : Nat) (i : InstId)
  | emitAdd (entity : Nat) (i : InstId)
  | emitRemove (entity : Nat) (i : InstId)
  | emitUpdate (entity : Nat)
  | emitEntityCreate (eid : Nat)
  | emitEntityDestroy (eid : Nat)

/-- Is this event an invocation of a `create` hook? -/
def Event.isCreate : Event → Bool
  | .create _ _ => true
  | _ => false

/-- Is this event an invocation of an `update` hook? -/
def Event.isUpdate : Event → Bool
  | .update _ _ _ _ => true
  | _ => false

/-- Is this event an invocation of a `destroy` hook? -/
def Event.isDestroy : Event → Bool
  | .destroy _ _ => true
  | _ => false

/-- The errors thrown by the runtime. -/
inductive JSError where
  | duplicateComponent (c : CType)
  | componentNotFound (c : CType)
  | missingRequiredComponent (c : CType)
  | missingRequiredComponents (cs : List CType)
deriving DecidableEq

/-- State of a `ComponentSystem` (per-entity registry): the insertion-ordered
map, the cached priority-ordered view with its dirty flag, the FIFO
pending-creation queue, and a counter providing fresh instance ids. -/
structure ComponentSystem where
  entity : Nat
  componentsMap : List (CType × MapValue)
  componentsList : List InstId
  componentsListDirty : Bool
  createComponentsList : List InstId
  nextId : InstId
deriving DecidableEq

/-- The registry of a freshly constructed entity: empty map, dirty view,
empty pending queue (fields as initialised in `ComponentSystem.ts`). -/
def ComponentSystem.init (entity : Nat) : ComponentSystem where
  entity := entity
  componentsMap := []
  componentsList := []
  componentsListDirty := true
  createComponentsList := []
  nextId := 0

/-- Result of an operation that may mutate the registry, emit events and
throw: the state as left behind, the events emitted so far, and the
propagated exception if one was thrown. -/
structure StepResult where
  state : ComponentSystem
  trace : List Event
  error : Option JSError

namespace ComponentSystem

/-- `Map.prototype.get` on the insertion-ordered association list. -/
def mapGet (m : List (CType × MapValue)) (c : CType) : Option MapValue :=
  (m.find? (fun p => p.1 == c)).map Prod.snd

/-- `a.meta?.priority ?? 0`: the sort key used by `rebuildList`. -/
def entryPriority (v : MapValue) : Int :=
  (v.meta.bind (fun m => m.priority)).getD 0

/-- The comparator of `rebuildList` (`aPriority - bPriority`, ascending). -/
def prioLE (a b : CType × MapValue) : Prop :=
  entryPriority a.2 ≤ entryPriority b.2

instance : DecidableRel prioLE := fun a b =>
  inferInstanceAs (Decidable (entryPriority a.2 ≤ entryPriority b.2))

instance : IsTotal (CType × MapValue) prioLE :=
  ⟨fun a b => le_total (entryPriority a.2) (entryPriority b.2)⟩

instance : IsTrans (CType × MapValue) prioLE :=
  ⟨fun _ _ _ h h2 => le_trans h h2⟩

/-- The stable sort performed by `Array.from(map.values()).sort(...)`:
ECMAScript `Array.prototype.sort` is stable, and iterating the `Map`
yields insertion order. -/
def sortedEntries (m : List (CType × MapValue)) : List (CType × MapValue) :=
  List.insertionSort prioLE m

/-- `rebuildList`: recompute the cached priority-ordered view when dirty. -/
def rebuildList (s : ComponentSystem) : ComponentSystem :=
  if !s.componentsListDirty then s
  else { s with
    componentsList := (sortedEntries s.componentsMap).map (fun p => p.2.inst)
    componentsListDirty := false }

/-- `find`: the instance, or `undefined` when absent. -/
def find (s : ComponentSystem) (c : CType) : Option InstId :=
  (mapGet s.componentsMap c).map (fun v => v.inst)

/-- `has`: membership test on the map. -/
def has (s : ComponentSystem) (c : CType) : Bool :=
  (mapGet s.componentsMap c).isSome

/-- `get`: the instance, or a thrown "not found" error. -/
def get (s : ComponentSystem) (c : CType) : Except JSError InstId :=
  match mapGet s.componentsMap c with
  | none => .error (.componentNotFound c)
  | some v => .ok v.inst

/-- `all`: rebuild the cached view if needed and return it. -/
def all (s : ComponentSystem) : List InstId × ComponentSystem :=
  let s1 := rebuildList s
  (s1.componentsList, s1)

/-- `add`: throw on duplicate; otherwise set the construction context to the
owning entity, invoke the constructor — the source passes the argument
array itself as the single argument (`new Component(args as unknown as [])`,
no spread) — reset the context, record the metadata snapshot, insert into
the map, enqueue for pending creation, invalidate the view, and emit
`add`/`update`. -/
def add (s : ComponentSystem) (c : CType) (meta : Option ComponentMetadata)
    (args : List JSValue) : StepResult :=
  if (mapGet s.componentsMap c).isSome then
    { state := s, trace := [], error := some (.duplicateComponent c) }
  else
    let i := s.nextId
    { state := { s with
        componentsMap := s.componentsMap ++ [(c, ⟨i, meta⟩)]
        componentsListDirty := true
        createComponentsList := s.createComponentsList ++ [i]
        nextId := i + 1 }
      trace := [.setCtx s.entity, .construct s.entity i [.arr args], .resetCtx,
        .emitAdd s.entity i, .emitUpdate s.entity]
      error := none }

/-- `remove`: no-op when absent; otherwise delete the map entry, invalidate
the view, filter the instance out of the pending-creation queue (guarded by
a length check in the source), and emit `remove`/`update`.  No lifecycle
hook is invoked. -/
def remove (s : ComponentSystem) (c : CType) : StepResult :=
  match mapGet s.componentsMap c with
  | none => { state := s, trace := [], error := none }
  | some v =>
    let newCreateList :=
      if s.createComponentsList.isEmpty then s.createComponentsList
      else s.createComponentsList.filter (fun i => i != v.inst)
    { state := { s with
        componentsMap := s.componentsMap.eraseP (fun p => p.1 == c)
        componentsListDirty := true
        createComponentsList := newCreateList }
      trace := [.emitRemove s.entity v.inst, .emitUpdate s.entity]
      error := none }

/-- `clear`: empty the map and the cached view; the pending-creation queue
is left untouched by the source.  Emits nothing and invokes no hook. -/
def clear (s : ComponentSystem) : ComponentSystem × List Event :=
  ({ s with componentsMap := [], componentsList := [], componentsListDirty := false }, [])

/-- `componentsMap.get(component.constructor)?.meta?.required ?? []`:
the declared dependencies consulted for a pending instance (reverse lookup
of the map entry holding this instance). -/
def requiredOf (s : ComponentSystem) (i : InstId) : List CType :=
  match s.componentsMap.find? (fun p => p.2.inst == i) with
  | none => []
  | some p =>
    match p.2.meta with
    | none => []
    | some m => m.required.getD []

/-- The first declared dependency of `i` missing from the map, if any. -/
def firstMissing (s : ComponentSystem) (i : InstId) : Option CType :=
  (requiredOf s i).find? (fun r => !(has s r))

/-- The `forEach` body of `createComponents`: check each pending instance's
declared dependencies (throwing on the first missing one, which aborts the
rest of the pass) and invoke its `create` hook.  The loop does not mutate
the registry. -/
def createComponentsLoop (s : ComponentSystem) : List InstId → List Event × Option JSError
  | [] => ([], none)
  | i :: rest =>
    match firstMissing s i with
    | some r => ([], some (.missingRequiredComponent r))
    | none =>
      let restResult := createComponentsLoop s rest
      (Event.create s.entity i :: restResult.1, restResult.2)

/-- `createComponents`: early return on an empty queue; otherwise run the
pending-creation pass and, only when it completed, clear the queue. -/
def createComponents (s : ComponentSystem) : StepResult :=
  if s.createComponentsList.isEmpty then { state := s, trace := [], error := none }
  else
    let r := createComponentsLoop s s.createComponentsList
    match r.2 with
    | some e => { state := s, trace := r.1, error := some e }
    | none => { state := { s with createComponentsList := [] }, trace := r.1, error := none }

/-- `updateComponents`: run `createComponents` first; if it threw, the
exception propagates and no `update` hook runs; otherwise invoke `update`
on every instance in the (rebuilt) priority-ordered view. -/
def updateComponents (s : ComponentSystem) (time delta : Int) : StepResult :=
  let r := createComponents s
  match r.error with
  | some _ => r
  | none =>
    let s1 := rebuildList r.state
    { state := s1
      trace := r.trace ++ s1.componentsList.map (fun i => .update s1.entity i time delta)
      error := none }

/-- `destroyComponents` / `forEach((c) => c.destroy())`: invoke `destroy` on
every instance in the priority-ordered view. -/
def destroyComponents (s : ComponentSystem) : ComponentSystem × List Event :=
  let s1 := rebuildList s
  (s1, s1.componentsList.map (fun i => .destroy s1.entity i))

end ComponentSystem

/-- Per-instance state of the abstract `Component` class (`Component.ts`):
the declared `priority` and `required` fields and the private `created`
flag. -/
structure ComponentState where
  priority : Int := 0
  required : List CType := []
  created : Bool := false
deriving DecidableEq

/-- `Component.checkRequired`: if the instance declares dependencies, filter
the ones missing from the owning entity and throw when any is missing. -/
def ComponentState.checkRequired (c : ComponentState) (hasComp : CType → Bool) :
    Option JSError :=
  if 0 < c.required.length then
    let missing := c.required.filter (fun r => !hasComp r)
    if 0 < missing.length then some (.missingRequiredComponents missing) else none
  else none

/-- `Component[createAndUpdate]`: on the first dispatch after addition,
check dependencies, invoke `create` and set the flag; then invoke `update`.
`e` and `i` are the owning entity id and the instance id. -/
def ComponentState.createAndUpdate (c : ComponentState) (hasComp : CType → Bool)
    (e : Nat) (i : InstId) (time delta : Int) :
    ComponentState × List Event × Option JSError :=
  if !c.created then
    match c.checkRequired hasComp with
    | some err => (c, [], some err)
    | none =>
      ({ c with created := true },
        [.create e i, .update e i time delta], none)
  else
    (c, [.update e i time delta], none)

/-- An entity as tracked by the `EntitySystem`: reference identity is
modelled by a unique id; the entity owns exactly one component registry. -/
structure SceneEntity where
  id : Nat
  components : ComponentSystem
deriving DecidableEq

/-- State of the `EntitySystem`: the live entity list and a counter
providing fresh entity ids. -/
structure EntitySystem where
  entities : List SceneEntity
  nextEntityId : Nat
deriving DecidableEq

namespace EntitySystem

/-- The entity system of a freshly constructed scene. -/
def init : EntitySystem where
  entities := []
  nextEntityId := 0

/-- `create()`: construct an entity bound to the scene, track it, emit a
`create` observation. -/
def create (es : EntitySystem) : SceneEntity × EntitySystem × List Event :=
  let e : SceneEntity := { id := es.nextEntityId, components := .init es.nextEntityId }
  (e,
    { entities := es.entities ++ [e], nextEntityId := es.nextEntityId + 1 },
    [.emitEntityCreate e.id])

/-- `entity.components.add(...)` for a tracked entity: mutate the registry
of the entity with id `eid` in place. -/
def addComponent (es : EntitySystem) (eid : Nat) (c : CType)
    (meta : Option ComponentMetadata) (args : List JSValue) :
    EntitySystem × List Event × Option JSError :=
  match es.entities.find? (fun e => e.id == eid) with
  | none => (es, [], none)
  | some e =>
    let r := e.components.add c meta args
    ({ es with entities :=
        es.entities.map (fun x => if x.id == eid then { x with components := r.state } else x) },
      r.trace, r.error)

/-- `destroy(entity)`: if tracked, invoke `destroy` on every component in
priority order, clear the registry, splice the entity out of the live list
and emit a `destroy` observation; if untracked, no-op.  The middle result
is the registry of the destroyed entity as the caller (who still holds the
reference) observes it afterwards. -/
def destroy (es : EntitySystem) (eid : Nat) :
    EntitySystem × Option ComponentSystem × List Event :=
  match es.entities.find? (fun e => e.id == eid) with
  | none => (es, none, [])
  | some e =>
    let d := e.components.destroyComponents
    let cleared := d.1.clear
    ({ es with entities := es.entities.eraseP (fun x => x.id == eid) },
      some cleared.1,
      d.2 ++ [.emitEntityDestroy eid])

/-- The body of `sceneDestroy`: ECMAScript `Array.prototype.forEach` over
the live entity array.  The length is read once up front; at visited index
`k` the callback runs only if the (mutated) array still has an element
there, and `destroy` splices the array while the loop advances.  `n` is
the number of indices still to visit. -/
def forEachDestroy (es : EntitySystem) (k : Nat) : Nat → EntitySystem × List Event
  | 0 => (es, [])
  | n + 1 =>
    if h : k < es.entities.length then
      let e := es.entities.get ⟨k, h⟩
      let r := destroy es e.id
      let rest := forEachDestroy r.1 (k + 1) n
      (rest.1, r.2.2 ++ rest.2)
    else
      forEachDestroy es (k + 1) n

/-- `sceneDestroy` (also bound to the `shutdown` signal):
`this.entities.forEach((e) => this.destroy(e))`. -/
def sceneDestroy (es : EntitySystem) : EntitySystem × List Event :=
  forEachDestroy es 0 es.entities.length

end EntitySystem

/-- State of a `QueryBuilder`: the accumulated conditions and the live
entity list it is bound to. -/
structure QueryBuilder where
  conditions : List (SceneEntity → Bool)
  entities : List SceneEntity

namespace QueryBuilder

/-- `entity.components.has(ctor)` as seen from query conditions. -/
def entityHas (e : SceneEntity) (c : CType) : Bool :=
  e.components.has c

/-- `entity.components.find(ctor)` as seen from query conditions. -/
def entityFind (e : SceneEntity) (c : CType) : Option InstId :=
  e.components.find c

/-- The condition pushed by `with(type)`. -/
def withCondSingle (ctor : CType) : SceneEntity → Bool := fun e =>
  entityHas e ctor

/-- The condition pushed by `with(type, where)`. -/
def withCondSingleWhere (ctor : CType) (p : InstId → Bool) : SceneEntity → Bool := fun e =>
  match entityFind e ctor with
  | none => false
  | some i => p i

/-- The condition pushed by `with([types])`. -/
def withCondMulti (ctors : List CType) : SceneEntity → Bool := fun e =>
  ctors.all (fun c => entityHas e c)

/-- The condition pushed by `with([types], where)`. -/
def withCondMultiWhere (ctors : List CType) (p : List InstId → Bool) :
    SceneEntity → Bool := fun e =>
  let instances := ctors.map (fun c => entityFind e c)
  if instances.any Option.isNone then false
  else p (instances.filterMap id)

/-- The condition pushed by `without(type)`. -/
def withoutCondSingle (ctor : CType) : SceneEntity → Bool := fun e =>
  !entityHas e ctor

/-- The condition pushed by `without(type, where)`: keep the entity when the
component is missing, or when the predicate is false for its instance. -/
def withoutCondSingleWhere (ctor : CType) (p : InstId → Bool) : SceneEntity → Bool := fun e =>
  match entityFind e ctor with
  | none => true
  | some i => !p i

/-- The condition pushed by `without([types])`. -/
def withoutCondMulti (ctors : List CType) : SceneEntity → Bool := fun e =>
  !ctors.all (fun c => entityHas e c)

/-- The condition pushed by `without([types], where)`: keep the entity when
any listed component is missing; otherwise exclude it exactly when the
predicate over the ordered instance tuple is true. -/
def withoutCondMultiWhere (ctors : List CType) (p : List InstId → Bool) :
    SceneEntity → Bool := fun e =>
  let instances := ctors.map (fun c => entityFind e c)
  if instances.any Option.isNone then true
  else !p (instances.filterMap id)

/-- Push a condition (the shared tail of `with`/`without`). -/
def pushCond (qb : QueryBuilder) (cond : SceneEntity → Bool) : QueryBuilder :=
  { qb with conditions := qb.conditions ++ [cond] }

/-- `with(type)`. -/
def withComp (qb : QueryBuilder) (ctor : CType) : QueryBuilder :=
  qb.pushCond (withCondSingle ctor)

/-- `without(type)`. -/
def withoutComp (qb : QueryBuilder) (ctor : CType) : QueryBuilder :=
  qb.pushCond (withoutCondSingle ctor)

/-- `without(type, where)`. -/
def withoutCompWhere (qb : QueryBuilder) (ctor : CType) (p : InstId → Bool) : QueryBuilder :=
  qb.pushCond (withoutCondSingleWhere ctor p)

/-- `without([types], where)`. -/
def withoutCompsWhere (qb : QueryBuilder) (ctors : List CType) (p : List InstId → Bool) :
    QueryBuilder :=
  qb.pushCond (withoutCondMultiWhere ctors p)

/-- `evaluateConditions`: no conditions means match all; otherwise AND. -/
def evaluateConditions (qb : QueryBuilder) (e : SceneEntity) : Bool :=
  if qb.conditions.isEmpty then true
  else qb.conditions.all (fun cond => cond e)

/-- `first()`: the first live entity matching all conditions (the source
loops and breaks), then reset the condition list. -/
def first (qb : QueryBuilder) : Option SceneEntity × QueryBuilder :=
  (qb.entities.find? (fun e => qb.evaluateConditions e), { qb with conditions := [] })

/-- `all()`: every live entity matching all conditions, in iteration order,
then reset the condition list. -/
def all (qb : QueryBuilder) : List SceneEntity × QueryBuilder :=
  (qb.entities.filter (fun e => qb.evaluateConditions e), { qb with conditions := [] })

/-- `count()`: `this.all().length`. -/
def count (qb : QueryBuilder) : Nat × QueryBuilder :=
  let r := qb.all
  (r.1.length, r.2)

/-- `exists()`: `this.first() !== undefined`. -/
def existsMatch (qb : QueryBuilder) : Bool × QueryBuilder :=
  let r := qb.first
  (r.1.isSome, r.2)

end QueryBuilder

/-! ### Helper lemmas -/

/-- `find?` returns the head of the filtered list. -/
theorem find?_eq_head?_filter {α : Type} (p : α → Bool) (l : List α) :
    l.find? p = (l.filter p).head? := by
  induction l with
  | nil => rfl
  | cons a l ih =>
    by_cases h : p a
    · rw [List.find?_cons_of_pos l h, List.filter_cons_of_pos h, List.head?_cons]
    · rw [List.find?_cons_of_neg l h, List.filter_cons_of_neg h, ih]

namespace ComponentSystem

/-- A pending-creation pass over instances whose dependencies are all
present invokes `create` on each of them in order and throws nothing. -/
theorem createComponentsLoop_ok (s : ComponentSystem) :
    ∀ l : List InstId, (∀ j ∈ l, s.firstMissing j = none) →
      s.createComponentsLoop l = (l.map (Event.create s.entity), none)
  | [], _ => rfl
  | i :: rest, h => by
    have hi : s.firstMissing i = none := h i (List.mem_cons_self i rest)
    have hr := createComponentsLoop_ok s rest (fun j hj => h j (List.mem_cons_of_mem i hj))
    simp [createComponentsLoop, hi, hr]

/-- A pending-creation pass that reaches an instance with a missing
dependency has invoked `create` exactly on the earlier instances and
throws, skipping the rest of the pass. -/
theorem createComponentsLoop_abort (s : ComponentSystem) (i : InstId) (y : CType)
    (l₂ : List InstId) (hi : s.firstMissing i = some y) :
    ∀ l₁ : List InstId, (∀ j ∈ l₁, s.firstMissing j = none) →
      s.createComponentsLoop (l₁ ++ i :: l₂) =
        (l₁.map (Event.create s.entity), some (.missingRequiredComponent y))
  | [], _ => by simp [createComponentsLoop, hi]
  | j :: rest, h => by
    have hj : s.firstMissing j = none := h j (List.mem_cons_self j rest)
    have hr := createComponentsLoop_abort s i y l₂ hi rest
      (fun k hk => h k (List.mem_cons_of_mem j hk))
    simp [createComponentsLoop, hj, hr]

/-- A pending-creation pass that throws nothing ran `create` on every
queued instance, in order. -/
theorem createComponentsLoop_trace_of_ok (s : ComponentSystem) :
    ∀ l : List InstId, (s.createComponentsLoop l).2 = none →
      (s.createComponentsLoop l).1 = l.map (Event.create s.entity)
  | [], _ => rfl
  | i :: rest, h => by
    rcases hfm : s.firstMissing i with _ | y
    · have h2 : (s.createComponentsLoop rest).2 = none := by
        simpa [createComponentsLoop, hfm] using h
      simp [createComponentsLoop, hfm, createComponentsLoop_trace_of_ok s rest h2]
    · simp [createComponentsLoop, hfm] at h

/-- Replacing the pending queue by its own value is the identity. -/
theorem eta_createList (s : ComponentSystem) (h : s.createComponentsList = []) :
    { s with createComponentsList := [] } = s := by
  cases s
  simp_all

/-- A `createComponents` pass that throws nothing ran `create` on the whole
pending queue in FIFO order and cleared the queue, leaving the rest of the
registry untouched. -/
theorem createComponents_of_ok (s : ComponentSystem)
    (h : s.createComponents.error = none) :
    s.createComponents =
      ⟨{ s with createComponentsList := [] },
        s.createComponentsList.map (Event.create s.entity), none⟩ := by
  by_cases he : s.createComponentsList.isEmpty
  · have hnil : s.createComponentsList = [] := List.isEmpty_iff.mp he
    simp [createComponents, he, hnil, eta_createList s hnil]
  · unfold createComponents at h ⊢
    rw [if_neg he] at h ⊢
    rcases hloop : (s.createComponentsLoop s.createComponentsList).2 with _ | err
    · have htr := createComponentsLoop_trace_of_ok s s.createComponentsList hloop
      simp [hloop, htr]
    · simp [hloop] at h

/-- `rebuildList` never changes the owning entity. -/
theorem rebuildList_entity (s : ComponentSystem) : (rebuildList s).entity = s.entity := by
  unfold rebuildList
  split <;> rfl

/-- An update dispatch propagates exactly the exception of its
pending-creation pass. -/
theorem updateComponents_error (s : ComponentSystem) (t d : Int) :
    (s.updateComponents t d).error = s.createComponents.error := by
  unfold updateComponents
  rcases h : s.createComponents.error with _ | e <;> simp [h]

/-- An update dispatch that throws nothing: the whole pending queue is
created in FIFO order, then every instance of the rebuilt priority-ordered
view is updated. -/
theorem updateComponents_of_ok (s : ComponentSystem) (t d : Int)
    (h : (s.updateComponents t d).error = none) :
    s.updateComponents t d =
      ⟨rebuildList { s with createComponentsList := [] },
        s.createComponentsList.map (Event.create s.entity) ++
          (rebuildList { s with createComponentsList := [] }).componentsList.map
            (fun i => Event.update s.entity i t d),
        none⟩ := by
  rw [updateComponents_error] at h
  unfold updateComponents
  rw [createComponents_of_ok s h]
  simp [rebuildList_entity]

end ComponentSystem

open ComponentSystem in
/-- C1: within one update dispatch of an entity's registry, every pending
creation (in FIFO add order) runs to completion before any `update` hook of
that cycle; and the per-component `createAndUpdate` dispatcher invokes
`create` before the same dispatch's `update` on a not-yet-created
instance. -/
theorem creations_run_before_updates :
    (∀ (s : ComponentSystem) (t d : Int), (s.updateComponents t d).error = none →
      ∃ n : Nat,
        ((s.updateComponents t d).trace.take n =
          s.createComponentsList.map (Event.create s.entity)) ∧
        (∀ ev ∈ (s.updateComponents t d).trace.take n, ev.isCreate = true) ∧
        (∀ ev ∈ (s.updateComponents t d).trace.drop n, ev.isUpdate = true))
    ∧ (∀ (c : ComponentState) (hasComp : CType → Bool) (e : Nat) (i : InstId) (t d : Int),
        c.created = false → (c.createAndUpdate hasComp e i t d).2.2 = none →
        (c.createAndUpdate hasComp e i t d).2.1 =
          [Event.create e i, Event.update e i t d]) := by
  constructor
  · intro s t d h
    rw [updateComponents_of_ok s t d h]
    refine ⟨(s.createComponentsList.map (Event.create s.entity)).length, ?_, ?_, ?_⟩
    · exact List.take_left _ _
    · rw [List.take_left]
      intro ev hev
      rcases List.mem_map.mp hev with ⟨i, _, rfl⟩
      rfl
    · rw [List.drop_left]
      intro ev hev
      rcases List.mem_map.mp hev with ⟨i, _, rfl⟩
      rfl
  · intro c hasComp e i t d hc herr
    unfold ComponentState.createAndUpdate at herr ⊢
    rw [hc] at herr ⊢
    rcases hck : c.checkRequired hasComp with _ | err
    · simp [hck]
    · simp [hck] at herr

/-- Concrete run of C1: a registry with two pending components. -/
def c1reg : ComponentSystem :=
  (((ComponentSystem.init 0).add 1 none []).state.add 2 none []).state

/-- Witness for C1 at a concrete registry with two pending components. -/
theorem creations_run_before_updates_witness :
    ((c1reg.updateComponents 3 4).error = none) ∧
    (∃ n : Nat,
      ((c1reg.updateComponents 3 4).trace.take n =
        c1reg.createComponentsList.map (Event.create c1reg.entity)) ∧
      (∀ ev ∈ (c1reg.updateComponents 3 4).trace.take n, ev.isCreate = true) ∧
      (∀ ev ∈ (c1reg.updateComponents 3 4).trace.drop n, ev.isUpdate = true)) :=
  ⟨rfl, creations_run_before_updates.1 c1reg 3 4 rfl⟩

namespace ComponentSystem

/-- A pending-creation pass reaching an instance with a missing dependency:
`createComponents` throws, ran `create` only on the earlier part of the
queue, and mutates nothing (in particular the queue is not cleared). -/
theorem createComponents_abort (s : ComponentSystem) (l₁ l₂ : List InstId)
    (i : InstId) (y : CType)
    (hlist : s.createComponentsList = l₁ ++ i :: l₂)
    (h₁ : ∀ j ∈ l₁, s.firstMissing j = none)
    (hi : s.firstMissing i = some y) :
    s.createComponents =
      ⟨s, l₁.map (Event.create s.entity), some (.missingRequiredComponent y)⟩ := by
  have hne : s.createComponentsList.isEmpty = false := by
    rw [hlist]
    simp
  unfold createComponents
  rw [hne]
  simp only [Bool.false_eq_true, if_false, hlist,
    createComponentsLoop_abort s i y l₂ hi l₁ h₁]

end ComponentSystem

open ComponentSystem in
/-- C5: a pending component with a declared `required` type that is absent
when its `create` would run makes the update dispatch throw the
missing-required-component error, aborting the remainder of the
pending-creation pass (nothing is mutated, no `update` runs, the queue is
not cleared); when every pending component's requirements are present the
same dispatch succeeds; and `add` itself never raises the
missing-required-component error (the check happens at first-creation
time). -/
theorem required_enforcement :
    (∀ (s : ComponentSystem) (t d : Int) (l₁ l₂ : List InstId) (i : InstId) (y : CType),
      s.createComponentsList = l₁ ++ i :: l₂ →
      (∀ j ∈ l₁, s.firstMissing j = none) →
      s.firstMissing i = some y →
      s.updateComponents t d =
        ⟨s, l₁.map (Event.create s.entity), some (.missingRequiredComponent y)⟩)
    ∧ (∀ (s : ComponentSystem) (t d : Int),
      (∀ j ∈ s.createComponentsList, s.firstMissing j = none) →
      (s.updateComponents t d).error = none)
    ∧ (∀ (s : ComponentSystem) (c : CType) (meta : Option ComponentMetadata)
        (args : List JSValue) (y : CType),
      (s.add c meta args).error ≠ some (.missingRequiredComponent y)) := by
  refine ⟨?_, ?_, ?_⟩
  · intro s t d l₁ l₂ i y hlist h₁ hi
    have hc := createComponents_abort s l₁ l₂ i y hlist h₁ hi
    unfold ComponentSystem.updateComponents
    rw [hc]
  · intro s t d h
    rw [updateComponents_error]
    by_cases he : s.createComponentsList.isEmpty
    · unfold ComponentSystem.createComponents
      rw [he]
      simp
    · unfold ComponentSystem.createComponents
      rw [eq_false_of_ne_true he]
      simp only [Bool.false_eq_true, if_false]
      rw [createComponentsLoop_ok s s.createComponentsList h]
  · intro s c meta args y
    unfold ComponentSystem.add
    by_cases h : (mapGet s.componentsMap c).isSome <;> simp [h]

/-- Concrete registry for C5: component type 1 requires type 2, which is
absent. -/
def c5regMissing : ComponentSystem :=
  ((ComponentSystem.init 0).add 1 (some ⟨none, some [2]⟩) []).state

/-- Concrete registry for C5: type 2 added after type 1, before the first
dispatch. -/
def c5regOk : ComponentSystem :=
  (c5regMissing.add 2 none []).state

/-- Witness for C5 at concrete registries with a missing and a satisfied
requirement. -/
theorem required_enforcement_witness :
    (c5regMissing.updateComponents 0 0 =
      ⟨c5regMissing, [], some (.missingRequiredComponent 2)⟩) ∧
    ((c5regOk.updateComponents 0 0).error = none) :=
  ⟨required_enforcement.1 c5regMissing 0 0 [] [] 0 2 rfl (by simp) rfl,
    required_enforcement.2.1 c5regOk 0 0 (by decide)⟩

namespace ComponentSystem

/-- Filtering one priority class out of an ordered insert: the inserted
entry lands in front of the entries of its own priority class (it is
inserted before the first entry it is `≤`, and every entry it skips has a
strictly smaller priority). -/
theorem filter_orderedInsert (p : Int) (x : CType × MapValue)
    (l : List (CType × MapValue)) :
    (l.orderedInsert prioLE x).filter (fun y => decide (entryPriority y.2 = p)) =
      if entryPriority x.2 = p then
        x :: l.filter (fun y => decide (entryPriority y.2 = p))
      else l.filter (fun y => decide (entryPriority y.2 = p)) := by
  induction l with
  | nil =>
    by_cases hx : entryPriority x.2 = p <;>
      simp [List.orderedInsert, List.filter_cons, hx]
  | cons y ys ih =>
    by_cases hxy : prioLE x y
    · simp only [List.orderedInsert, if_pos hxy]
      by_cases hx : entryPriority x.2 = p <;>
        simp [List.filter_cons, hx]
    · simp only [List.orderedInsert, if_neg hxy]
      unfold prioLE at hxy
      have hlt : entryPriority y.2 < entryPriority x.2 := lt_of_not_le hxy
      by_cases hy : entryPriority y.2 = p
      · have hx : ¬ entryPriority x.2 = p := by
          intro hx
          rw [hx, ← hy] at hlt
          exact lt_irrefl _ hlt
        simp [List.filter_cons, hy, hx, ih]
      · by_cases hx : entryPriority x.2 = p <;>
          simp [List.filter_cons, hy, hx, ih]

/-- Stability of the view sort: each priority class of the sorted map
entries is exactly the insertion-ordered subsequence of that class. -/
theorem filter_sortedEntries (p : Int) (m : List (CType × MapValue)) :
    (sortedEntries m).filter (fun y => decide (entryPriority y.2 = p)) =
      m.filter (fun y => decide (entryPriority y.2 = p)) := by
  induction m with
  | nil => rfl
  | cons x xs ih =>
    unfold sortedEntries at ih
    show ((List.insertionSort prioLE xs).orderedInsert prioLE x).filter _ = _
    rw [filter_orderedInsert]
    by_cases hx : entryPriority x.2 = p <;>
      simp [List.filter_cons, hx, ih]

end ComponentSystem

/-- Registry for C6: add component type 1 with declared priority `1`
(instance 0), then component type 2 with declared priority `-1`
(instance 1). -/
def c6reg : ComponentSystem :=
  (((ComponentSystem.init 0).add 1 (some ⟨some 1, none⟩) []).state.add 2
    (some ⟨some (-1), none⟩) []).state

/-- Registry for C6: two components with equal (default) priority added in
order (instance 0 first, instance 1 second). -/
def c6regEq : ComponentSystem :=
  (((ComponentSystem.init 0).add 1 none []).state.add 2 none []).state

open ComponentSystem in
/-- C6: the dispatch view is a stable sort of the insertion-ordered map
entries by ascending declared priority — the sorted view is pairwise
ordered by priority and each priority class keeps insertion (add) order —
and concretely: with B(priority 1) added before A(priority −1), the first
update dispatch invokes A's `update` (instance 1) before B's
(instance 0); with equal priorities the hooks run in add order. -/
theorem priority_ordering :
    (∀ m : List (CType × MapValue), List.Sorted prioLE (sortedEntries m))
    ∧ (∀ (m : List (CType × MapValue)) (p : Int),
        (sortedEntries m).filter (fun y => decide (entryPriority y.2 = p)) =
          m.filter (fun y => decide (entryPriority y.2 = p)))
    ∧ ((c6reg.updateComponents 5 6).trace =
        [.create 0 0, .create 0 1, .update 0 1 5 6, .update 0 0 5 6])
    ∧ ((c6regEq.updateComponents 5 6).trace =
        [.create 0 0, .create 0 1, .update 0 0 5 6, .update 0 1 5 6]) :=
  ⟨fun m => List.sorted_insertionSort prioLE m,
    fun m p => filter_sortedEntries p m, rfl, rfl⟩

namespace ComponentSystem

/-- The registry invariant carried by construction: component-type keys of
the map are pairwise distinct (a JavaScript `Map` has unique keys). -/
def WF (s : ComponentSystem) : Prop :=
  (s.componentsMap.map Prod.fst).Nodup

/-- `mapGet` misses when the key occurs nowhere. -/
theorem mapGet_eq_none_of_not_mem (m : List (CType × MapValue)) (c : CType)
    (h : c ∉ m.map Prod.fst) : mapGet m c = none := by
  have hf : m.find? (fun p => p.1 == c) = none := by
    apply List.find?_eq_none.mpr
    intro x hx hbeq
    exact h (List.mem_map.mpr ⟨x, hx, by simpa using hbeq⟩)
  unfold mapGet
  rw [hf]
  rfl

/-- A key reported absent occurs nowhere in the map. -/
theorem not_mem_of_has_false (s : ComponentSystem) (c : CType) (h : s.has c = false) :
    c ∉ s.componentsMap.map Prod.fst := by
  intro hmem
  rcases List.mem_map.mp hmem with ⟨p, hp, hpc⟩
  unfold has mapGet at h
  rcases hfind : s.componentsMap.find? (fun q => q.1 == c) with _ | v
  · have := List.find?_eq_none.mp hfind p hp
    simp [hpc] at this
  · rw [hfind] at h
    simp at h

/-- A key reported absent has no `mapGet` entry. -/
theorem mapGet_eq_none_of_has_false (s : ComponentSystem) (c : CType)
    (h : s.has c = false) : mapGet s.componentsMap c = none := by
  unfold has at h
  rcases hm : mapGet s.componentsMap c with _ | v
  · rfl
  · rw [hm] at h
    simp at h

/-- Appending a fresh entry makes its key found. -/
theorem mapGet_append_right (m : List (CType × MapValue)) (c : CType) (v : MapValue)
    (h : mapGet m c = none) : mapGet (m ++ [(c, v)]) c = some v := by
  have hf : m.find? (fun p => p.1 == c) = none := by
    unfold mapGet at h
    rcases hfind : m.find? (fun p => p.1 == c) with _ | w
    · exact hfind
    · rw [hfind] at h
      simp at h
  unfold mapGet
  rw [List.find?_append, hf, Option.none_or, List.find?_cons_of_pos _ (by simp)]
  rfl

/-- `mapGet` skips a head entry with a different key. -/
theorem mapGet_cons_of_ne (k c : CType) (v : MapValue) (m : List (CType × MapValue))
    (h : k ≠ c) : mapGet ((k, v) :: m) c = mapGet m c := by
  unfold mapGet
  rw [List.find?_cons_of_neg _ (by simp [h])]

/-- Deleting a key from a map with pairwise-distinct keys makes it
absent. -/
theorem mapGet_eraseP_self (c : CType) :
    ∀ m : List (CType × MapValue), (m.map Prod.fst).Nodup →
      mapGet (m.eraseP (fun p => p.1 == c)) c = none
  | [], _ => rfl
  | (k, v) :: rest, h => by
    rw [List.map_cons] at h
    have hk : (k, v).1 ∉ rest.map Prod.fst := (List.nodup_cons.mp h).1
    have hnd : (rest.map Prod.fst).Nodup := (List.nodup_cons.mp h).2
    by_cases hkc : k = c
    · subst hkc
      rw [List.eraseP_cons_of_pos (by simp)]
      exact mapGet_eq_none_of_not_mem rest k hk
    · rw [List.eraseP_cons_of_neg (by simp [hkc])]
      rw [mapGet_cons_of_ne k c v _ hkc]
      exact mapGet_eraseP_self c rest hnd

/-- After `remove`, the type is absent (given distinct keys). -/
theorem remove_has_self (s : ComponentSystem) (c : CType) (h : WF s) :
    (s.remove c).state.has c = false := by
  unfold remove
  rcases hm : mapGet s.componentsMap c with _ | v
  · simp only [has]
    rw [hm]
    rfl
  · simp only [has]
    rw [mapGet_eraseP_self c s.componentsMap h]
    rfl

/-- Adding an absent type succeeds and makes it present. -/
theorem add_of_has_false (s : ComponentSystem) (c : CType)
    (meta : Option ComponentMetadata) (args : List JSValue) (h : s.has c = false) :
    (s.add c meta args).error = none ∧ (s.add c meta args).state.has c = true := by
  have hc : mapGet s.componentsMap c = none := mapGet_eq_none_of_has_false s c h
  unfold add
  rw [if_neg (by simp [hc])]
  refine ⟨rfl, ?_⟩
  show (mapGet (s.componentsMap ++ [(c, MapValue.mk s.nextId meta)]) c).isSome = true
  rw [mapGet_append_right _ _ _ hc]
  rfl

/-- `add` preserves key distinctness. -/
theorem WF_add (s : ComponentSystem) (c : CType) (meta : Option ComponentMetadata)
    (args : List JSValue) (h : WF s) : WF (s.add c meta args).state := by
  unfold add
  by_cases hc : (mapGet s.componentsMap c).isSome
  · rw [if_pos hc]
    exact h
  · rw [if_neg hc]
    show ((s.componentsMap ++ [(c, MapValue.mk s.nextId meta)]).map Prod.fst).Nodup
    rw [List.map_append]
    refine h.append (List.nodup_singleton c) ?_
    refine List.disjoint_singleton.mpr ?_
    exact not_mem_of_has_false s c (eq_false_of_ne_true hc)

/-- `remove` preserves key distinctness. -/
theorem WF_remove (s : ComponentSystem) (c : CType) (h : WF s) :
    WF (s.remove c).state := by
  unfold remove
  rcases hm : mapGet s.componentsMap c with _ | v
  · exact h
  · show ((s.componentsMap.eraseP (fun p => p.1 == c)).map Prod.fst).Nodup
    exact h.sublist ((List.eraseP_sublist _).map Prod.fst)

end ComponentSystem

open ComponentSystem in
/-- C7: adding a type already present throws the duplicate-component error
and leaves the registry unchanged; adding an absent type succeeds and makes
it present; after `remove`, adding the same type again succeeds; and
key-distinctness (at most one live instance per component type) holds for a
fresh registry and is preserved by `add` and `remove`. -/
theorem at_most_one_per_type :
    (∀ (s : ComponentSystem) (c : CType) (meta : Option ComponentMetadata)
        (args : List JSValue),
      s.has c = true →
      s.add c meta args = ⟨s, [], some (.duplicateComponent c)⟩)
    ∧ (∀ (s : ComponentSystem) (c : CType) (meta : Option ComponentMetadata)
        (args : List JSValue),
      s.has c = false →
      (s.add c meta args).error = none ∧ (s.add c meta args).state.has c = true)
    ∧ (∀ (s : ComponentSystem) (c : CType) (meta : Option ComponentMetadata)
        (args : List JSValue),
      WF s → ((s.remove c).state.add c meta args).error = none)
    ∧ (∀ (s : ComponentSystem) (c : CType) (meta : Option ComponentMetadata)
        (args : List JSValue),
      WF s → WF (s.add c meta args).state ∧ WF (s.remove c).state)
    ∧ (∀ e : Nat, WF (ComponentSystem.init e)) := by
  refine ⟨?_, ?_, ?_, ?_, ?_⟩
  · intro s c meta args h
    unfold ComponentSystem.has at h
    unfold ComponentSystem.add
    rw [if_pos h]
  · intro s c meta args h
    exact add_of_has_false s c meta args h
  · intro s c meta args h
    exact (add_of_has_false _ c meta args (remove_has_self s c h)).1
  · intro s c meta args h
    exact ⟨WF_add s c meta args h, WF_remove s c h⟩
  · intro e
    exact List.nodup_nil

/-- Registry for C7's witness: one component of type 3 present. -/
def c7reg : ComponentSystem :=
  ((ComponentSystem.init 0).add 3 none []).state

/-- Witness for C7: duplicate add of type 3 throws and changes nothing;
after removing it, adding succeeds again. -/
theorem at_most_one_per_type_witness :
    (c7reg.add 3 none [] = ⟨c7reg, [], some (.duplicateComponent 3)⟩) ∧
    (((c7reg.remove 3).state.add 3 none []).error = none) :=
  ⟨at_most_one_per_type.1 c7reg 3 none [] rfl,
    (at_most_one_per_type.2.2.1 c7reg 3 none [])
      (by show (c7reg.componentsMap.map Prod.fst).Nodup; decide)⟩

/-- Registry for C2: component type 5 added and then created by a first
update dispatch (the pending queue is empty afterwards). -/
def c2reg : ComponentSystem :=
  (((ComponentSystem.init 0).add 5 none []).state.updateComponents 0 0).state

/-- C2 counterexample: removing an already-created instance does not invoke
its `destroy` hook before the map entry is deleted — the remove trace holds
only the emitter signals and no `destroy` invocation, although the instance
had been created (empty pending queue) and the entry is deleted. -/
theorem remove_no_destroy_counterexample :
    (c2reg.createComponentsList = []) ∧
    (c2reg.has 5 = true) ∧
    ((c2reg.remove 5).trace = [.emitRemove 0 0, .emitUpdate 0]) ∧
    ((c2reg.remove 5).trace.all (fun ev => !ev.isDestroy) = true) ∧
    ((c2reg.remove 5).state.has 5 = false) :=
  ⟨rfl, rfl, rfl, rfl, rfl⟩

open ComponentSystem in
/-- C2 amended: `remove` of an absent type is a no-op raising no error;
`remove` never throws and never invokes any lifecycle hook — in particular
a created instance's map entry is deleted without `destroy` running
(destroy runs only on entity/scene teardown) — and a (pending) instance is
deleted from the map and from the pending-creation queue, so it is never
created afterwards. -/
theorem remove_semantics :
    (∀ (s : ComponentSystem) (c : CType), s.has c = false → s.remove c = ⟨s, [], none⟩)
    ∧ (∀ (s : ComponentSystem) (c : CType), (s.remove c).error = none)
    ∧ (∀ (s : ComponentSystem) (c : CType),
        (s.remove c).trace.all
          (fun ev => !(ev.isDestroy || ev.isCreate || ev.isUpdate)) = true)
    ∧ (∀ (s : ComponentSystem) (c : CType), WF s → (s.remove c).state.has c = false)
    ∧ (∀ (s : ComponentSystem) (c : CType) (v : MapValue),
        mapGet s.componentsMap c = some v →
        v.inst ∉ (s.remove c).state.createComponentsList) := by
  refine ⟨?_, ?_, ?_, ?_, ?_⟩
  · intro s c h
    unfold ComponentSystem.remove
    rw [mapGet_eq_none_of_has_false s c h]
  · intro s c
    unfold ComponentSystem.remove
    rcases hm : mapGet s.componentsMap c with _ | v <;> rfl
  · intro s c
    unfold ComponentSystem.remove
    rcases hm : mapGet s.componentsMap c with _ | v <;> rfl
  · intro s c h
    exact remove_has_self s c h
  · intro s c v hm
    unfold ComponentSystem.remove
    rw [hm]
    show v.inst ∉
      (if s.createComponentsList.isEmpty then s.createComponentsList
        else s.createComponentsList.filter (fun i => i != v.inst))
    by_cases he : s.createComponentsList.isEmpty
    · rw [if_pos he, List.isEmpty_iff.mp he]
      exact List.not_mem_nil _
    · rw [if_neg he]
      intro hmem
      have h2 := (List.mem_filter.mp hmem).2
      simp at h2

/-- Witness for C2's amended statement: removing an absent type from a
fresh registry is a no-op; removing the created component of `c2reg`
deletes its entry. -/
theorem remove_semantics_witness :
    ((ComponentSystem.init 0).remove 9 = ⟨ComponentSystem.init 0, [], none⟩) ∧
    ((c2reg.remove 5).state.has 5 = false) :=
  ⟨remove_semantics.1 (ComponentSystem.init 0) 9 rfl,
    remove_semantics.2.2.2.1 c2reg 5
      (by show (c2reg.componentsMap.map Prod.fst).Nodup; decide)⟩

/-- C4: evaluating `add` at a concrete call (`add(T, 2)` on a fresh
registry): the construction context is set to the owning entity immediately
before the constructor invocation and cleared immediately after, but the
constructor is invoked with a single argument — the argument array itself
(`new Component(args as unknown as [])`, no spread) — rather than with the
supplied arguments positionally: it receives `[[2]]`, not `[2]`. -/
theorem add_passes_args_array :
    (((ComponentSystem.init 7).add 0 none [JSValue.num 2]).trace =
      [.setCtx 7, .construct 7 0 [JSValue.arr [JSValue.num 2]], .resetCtx,
        .emitAdd 7 0, .emitUpdate 7])
    ∧ ([JSValue.arr [JSValue.num 2]] ≠ [JSValue.num 2]) :=
  ⟨rfl, fun h => by
    injection h with h1 _
    exact JSValue.noConfusion h1⟩

/-- Scene for C3: two tracked entities (ids 0 and 1), each with one
component of type 5 (instance 0 of its registry). -/
def c3scene : EntitySystem :=
  let r0 := EntitySystem.init.create
  let r1 := r0.2.1.create
  let r2 := EntitySystem.addComponent r1.2.1 0 5 none []
  let r3 := EntitySystem.addComponent r2.1 1 5 none []
  r3.1

/-- C3: evaluating the `destroy`/`shutdown` relay at a scene with two
tracked entities: `sceneDestroy` iterates the live array with `forEach`
while `destroy` splices it, so after entity 0 is untracked the loop index
has moved past entity 1 — only entity 0's component is destroyed, entity 1
stays tracked and a subsequent query still matches it, contradicting the
claim that every tracked entity is destroyed and the tracked set left
empty. -/
theorem sceneDestroy_skips_entities :
    (c3scene.entities.map (fun e => e.id) = [0, 1])
    ∧ ((c3scene.sceneDestroy).1.entities.map (fun e => e.id) = [1])
    ∧ ((c3scene.sceneDestroy).2 = [Event.destroy 0 0, Event.emitEntityDestroy 0])
    ∧ (((QueryBuilder.mk [] (c3scene.sceneDestroy).1.entities).withComp 5).existsMatch.1
        = true) :=
  ⟨rfl, rfl, rfl, rfl⟩

namespace QueryBuilder

/-- `evaluateConditions` is the conjunction of all accumulated conditions
(the empty-conditions early return coincides with an empty conjunction). -/
theorem evaluateConditions_eq_all (qb : QueryBuilder) (e : SceneEntity) :
    qb.evaluateConditions e = qb.conditions.all (fun cond => cond e) := by
  unfold evaluateConditions
  by_cases he : qb.conditions.isEmpty
  · rw [if_pos he, List.isEmpty_iff.mp he]
    rfl
  · rw [if_neg he]

end QueryBuilder

open QueryBuilder in
/-- C8: the terminal operations evaluate the conjunction of the accumulated
conditions — an entity passes `evaluateConditions` iff every condition
holds for it (zero conditions match every entity); `all` filters the live
entity list by that conjunction; `first` returns the head of `all`'s
result; `count` equals the length of `all`'s result; `exists` is true iff
`first` finds an entity; and every terminal operation resets the condition
list so the evaluator can be reused. -/
theorem query_terminal_semantics :
    (∀ (qb : QueryBuilder) (e : SceneEntity),
      qb.evaluateConditions e = true ↔ ∀ cond ∈ qb.conditions, cond e = true)
    ∧ (∀ qb : QueryBuilder,
      (qb.all).1 = qb.entities.filter (fun e => qb.conditions.all (fun cond => cond e)))
    ∧ (∀ qb : QueryBuilder, (qb.first).1 = (qb.all).1.head?)
    ∧ (∀ qb : QueryBuilder, (qb.count).1 = (qb.all).1.length)
    ∧ (∀ qb : QueryBuilder, ((qb.existsMatch).1 = true ↔ (qb.first).1 ≠ none))
    ∧ (∀ qb : QueryBuilder,
      (qb.first).2.conditions = [] ∧ (qb.all).2.conditions = [] ∧
      (qb.count).2.conditions = [] ∧ (qb.existsMatch).2.conditions = []) := by
  refine ⟨?_, ?_, ?_, ?_, ?_, ?_⟩
  · intro qb e
    rw [evaluateConditions_eq_all]
    exact List.all_eq_true
  · intro qb
    show qb.entities.filter (fun e => qb.evaluateConditions e) = _
    exact List.filter_congr (fun e _ => evaluateConditions_eq_all qb e)
  · intro qb
    exact find?_eq_head?_filter (fun e => qb.evaluateConditions e) qb.entities
  · intro qb
    rfl
  · intro qb
    exact Option.isSome_iff_ne_none
  · intro qb
    exact ⟨rfl, rfl, rfl, rfl⟩

/-- An entity with a component of type 4 (C8 witness fixture). -/
def c8entityA : SceneEntity := ⟨0, ((ComponentSystem.init 0).add 4 none []).state⟩

/-- An entity with no components (C8 witness fixture). -/
def c8entityB : SceneEntity := ⟨1, ComponentSystem.init 1⟩

/-- A concrete query accumulated over the two fixture entities. -/
def c8qb : QueryBuilder := (QueryBuilder.mk [] [c8entityA, c8entityB]).withComp 4

/-- Witness for C8 at a concrete query: the terminal identities hold and
the condition list is reset. -/
theorem query_terminal_semantics_witness :
    (c8qb.count.1 = c8qb.all.1.length) ∧ (c8qb.first.1 = c8qb.all.1.head?) ∧
    (c8qb.all.2.conditions = []) :=
  ⟨query_terminal_semantics.2.2.2.1 c8qb, query_terminal_semantics.2.2.1 c8qb,
    (query_terminal_semantics.2.2.2.2.2 c8qb).2.1⟩

open QueryBuilder in
/-- C9: a predicate-qualified `without` never excludes an entity missing a
listed component type: the single-type condition keeps every entity lacking
the type and every entity whose instance fails the predicate, excluding
exactly those having the type with a true predicate; the multi-type
condition keeps any entity missing one of the listed types and excludes
exactly the entities having every listed type whose ordered instance tuple
satisfies the predicate. -/
theorem without_predicate_semantics :
    (∀ (ct : CType) (p : InstId → Bool) (e : SceneEntity),
      entityFind e ct = none → withoutCondSingleWhere ct p e = true)
    ∧ (∀ (ct : CType) (p : InstId → Bool) (e : SceneEntity) (i : InstId),
      entityFind e ct = some i → p i = false → withoutCondSingleWhere ct p e = true)
    ∧ (∀ (ct : CType) (p : InstId → Bool) (e : SceneEntity),
      withoutCondSingleWhere ct p e = false ↔
        ∃ i, entityFind e ct = some i ∧ p i = true)
    ∧ (∀ (cts : List CType) (p : List InstId → Bool) (e : SceneEntity) (c : CType),
      c ∈ cts → entityFind e c = none → withoutCondMultiWhere cts p e = true)
    ∧ (∀ (cts : List CType) (p : List InstId → Bool) (e : SceneEntity),
      withoutCondMultiWhere cts p e = false ↔
        ((∀ c ∈ cts, (entityFind e c).isSome = true) ∧
          p ((cts.map (fun c => entityFind e c)).filterMap id) = true)) := by
  refine ⟨?_, ?_, ?_, ?_, ?_⟩
  · intro ct p e h
    unfold QueryBuilder.withoutCondSingleWhere
    rw [h]
  · intro ct p e i h hp
    simp [QueryBuilder.withoutCondSingleWhere, h, hp]
  · intro ct p e
    unfold QueryBuilder.withoutCondSingleWhere
    rcases hf : entityFind e ct with _ | i
    · simp
    · simp
  · intro cts p e c hc hfind
    unfold QueryBuilder.withoutCondMultiWhere
    rw [if_pos]
    exact List.any_eq_true.mpr
      ⟨entityFind e c, List.mem_map.mpr ⟨c, hc, rfl⟩, by rw [hfind]; rfl⟩
  · intro cts p e
    unfold QueryBuilder.withoutCondMultiWhere
    by_cases hany : (cts.map (fun c => entityFind e c)).any Option.isNone
    · rw [if_pos hany]
      constructor
      · intro h
        simp at h
      · rintro ⟨hall, _⟩
        rcases List.any_eq_true.mp hany with ⟨o, ho, hno⟩
        rcases List.mem_map.mp ho with ⟨c, hc, rfl⟩
        have hs := hall c hc
        rw [Option.isNone_iff_eq_none] at hno
        rw [hno] at hs
        simp at hs
    · rw [if_neg hany]
      have hall : ∀ c ∈ cts, (entityFind e c).isSome = true := by
        intro c hc
        rcases hm : entityFind e c with _ | i
        · exact absurd
            (List.any_eq_true.mpr
              ⟨entityFind e c, List.mem_map.mpr ⟨c, hc, rfl⟩, by rw [hm]; rfl⟩)
            hany
        · rfl
      constructor
      · intro h
        refine ⟨hall, ?_⟩
        simpa using h
      · rintro ⟨_, hp⟩
        simpa using hp

/-- An entity having component types 1 and 2 (C9 witness fixture). -/
def c9entity : SceneEntity :=
  ⟨0, (((ComponentSystem.init 0).add 1 none []).state.add 2 none []).state⟩

/-- Witness for C9 at a concrete entity: an entity lacking type 9 is kept
by `without(9, p)` and by `without([1, 9], p)`; it is excluded by
`without(1, p)` exactly because it has type 1 with the predicate true. -/
theorem without_predicate_semantics_witness :
    (QueryBuilder.withoutCondSingleWhere 9 (fun _ => true) c9entity = true) ∧
    (QueryBuilder.withoutCondMultiWhere [1, 9] (fun _ => true) c9entity = true) ∧
    (QueryBuilder.withoutCondSingleWhere 1 (fun _ => true) c9entity = false) :=
  ⟨without_predicate_semantics.1 9 (fun _ => true) c9entity rfl,
    without_predicate_semantics.2.2.2.1 [1, 9] (fun _ => true) c9entity 9
      (by simp) rfl,
    (without_predicate_semantics.2.2.1 1 (fun _ => true) c9entity).mpr ⟨0, rfl, rfl⟩⟩

namespace ComponentSystem

/-- Invoking `destroy` on every instance of the view produces only
`destroy` events. -/
theorem destroyComponents_all_isDestroy (s : ComponentSystem) :
    s.destroyComponents.2.all Event.isDestroy = true := by
  apply List.all_eq_true.mpr
  intro ev hev
  rcases List.mem_map.mp hev with ⟨i, _, rfl⟩
  rfl

end ComponentSystem

open ComponentSystem EntitySystem in
/-- C10: `clear` empties the registry — afterwards `has` is false, `find`
returns nothing, `get` throws not-found and `all` is empty, for every
component type — while emitting no event and invoking no lifecycle hook;
and `destroy` hooks run on teardown because the entity registry's destroy
path invokes `destroy` on each component of the entity (computed from the
registry as it stood before clearing, in priority order) and only then
clears the registry, whose observers subsequently report it empty. -/
theorem clear_semantics :
    (∀ (s : ComponentSystem) (c : CType),
      (s.clear.1).has c = false ∧ (s.clear.1).find c = none ∧
      (s.clear.1).get c = .error (.componentNotFound c))
    ∧ (∀ s : ComponentSystem, ((s.clear.1).all).1 = [] ∧ s.clear.2 = [])
    ∧ (∀ (es : EntitySystem) (eid : Nat) (e : SceneEntity),
      es.entities.find? (fun x => x.id == eid) = some e →
      (es.destroy eid).2.1 = some ((e.components.destroyComponents.1).clear.1) ∧
      (es.destroy eid).2.2 =
        e.components.destroyComponents.2 ++ [.emitEntityDestroy eid] ∧
      (e.components.destroyComponents.2.all Event.isDestroy = true) ∧
      (∀ c : CType, ((e.components.destroyComponents.1).clear.1).has c = false)) := by
  refine ⟨?_, ?_, ?_⟩
  · intro s c
    exact ⟨rfl, rfl, rfl⟩
  · intro s
    exact ⟨rfl, rfl⟩
  · intro es eid e hfind
    unfold EntitySystem.destroy
    rw [hfind]
    exact ⟨rfl, rfl, destroyComponents_all_isDestroy e.components, fun c => rfl⟩

/-- An entity (id 0) with one component of type 6 (C10 witness fixture). -/
def c10e : SceneEntity := ⟨0, ((ComponentSystem.init 0).add 6 none []).state⟩

/-- A scene tracking exactly the C10 fixture entity. -/
def c10scene : EntitySystem := ⟨[c10e], 1⟩

/-- Witness for C10 at a concrete scene: destroying the tracked entity
emits its component's `destroy` first and leaves the caller-held registry
cleared. -/
theorem clear_semantics_witness :
    ((c10scene.destroy 0).2.2 =
      c10e.components.destroyComponents.2 ++ [.emitEntityDestroy 0]) ∧
    ((c10scene.destroy 0).2.1 = some ((c10e.components.destroyComponents.1).clear.1)) ∧
    (((c10e.components.destroyComponents.1).clear.1).has 6 = false) :=
  ⟨(clear_semantics.2.2 c10scene 0 c10e rfl).2.1,
    (clear_semantics.2.2 c10scene 0 c10e rfl).1,
    (clear_semantics.2.2 c10scene 0 c10e rfl).2.2.2 6⟩
